import Mathlib

/-!
Shallow embedding of `ing2qif.py`, a converter from ING bank CSV statements
to QIF.  Strings are Lean `String`s; Python string operations (slicing,
`index`, `startswith`, `in`, `strip`, single-character `replace`) are
embedded as total functions over `List Char`.  Python exceptions that the
program can raise (the explicit `Exception(mededelingen, omschrijving)` of
`_memo_incasso`, and the uncaught `ValueError` that
`_memo_verzamelbetaling` can leak) are modelled with `Except`.
-/

set_option autoImplicit false
set_option linter.unusedVariables false

namespace Ing2Qif

/-- Python slice semantics `l[a:b]` for non-negative bounds: clamped,
never raising. -/
def pySliceList (l : List Char) (a b : Nat) : List Char :=
  (l.drop a).take (b - a)

/-- `s[a:b]` on strings. -/
def strSlice (s : String) (a b : Nat) : String :=
  String.mk (pySliceList s.data a b)

/-- `s[:n]` on strings. -/
def strTake (s : String) (n : Nat) : String :=
  String.mk (s.data.take n)

/-- Does `pat` start the list `l`?  (Python `startswith` at one position.) -/
def listStarts : List Char → List Char → Bool
  | [], _ => true
  | _ :: _, [] => false
  | p :: ps, c :: cs => p == c && listStarts ps cs

/-- Python `s.startswith(pre)`. -/
def strStartsWith (s pre : String) : Bool :=
  listStarts pre.data s.data

/-- Index of the first occurrence of `pat` in `l`, or `none`.
(Python `str.index`, with the `ValueError` case as `none`.) -/
def subIdx (pat : List Char) : List Char → Option Nat
  | [] => if listStarts pat [] then some 0 else none
  | c :: rest =>
    if listStarts pat (c :: rest) then some 0
    else (subIdx pat rest).map (fun i => i + 1)

/-- Python `s.index(pat)` as an `Option`. -/
def strIndex? (s pat : String) : Option Nat :=
  subIdx pat.data s.data

/-- Python `pat in s` (substring containment). -/
def containsSub (s pat : String) : Bool :=
  (strIndex? s pat).isSome

/-- Python `str.strip()` whitespace class (ASCII part). -/
def pyIsSpace (c : Char) : Bool :=
  c == ' ' || c == '\t' || c == '\n' || c == '\r' || c == '\x0b' || c == '\x0c'

/-- Strip from both ends of a char list. -/
def pyStripList (l : List Char) : List Char :=
  ((l.dropWhile pyIsSpace).reverse.dropWhile pyIsSpace).reverse

/-- Python `s.strip()`. -/
def pyStrip (s : String) : String :=
  String.mk (pyStripList s.data)

/-- Python `"sep".join(l)`. -/
def pyJoin (sep : String) : List String → String
  | [] => ""
  | [x] => x
  | x :: xs => x ++ sep ++ pyJoin sep xs

/-- The single-character replacement performed by
`Entry._clean_up`: `value.replace(',', '.')`. -/
def commaToDot (c : Char) : Char :=
  if c = ',' then '.' else c

/-- `Entry._clean_up`'s amount normalization:
`self._data['Bedrag (EUR)'].replace(',', '.')`. -/
def cleanAmount (s : String) : String :=
  String.mk (s.data.map commaToDot)

/-- One CSV row of the ING export, restricted to the columns the program
reads.  Field names map to the CSV column names:
`bedrag` = `'Bedrag (EUR)'`, `datum` = `'Datum'`,
`naamOmschrijving` = `'Naam / Omschrijving'` (the payee),
`mededelingen` = `'Mededelingen'` (the free-text notes),
`mutatiesoort` = `'Mutatiesoort'` (the category),
`afBij` = `'Af Bij'` (the direction indicator). -/
structure Row where
  bedrag : String
  datum : String
  naamOmschrijving : String
  mededelingen : String
  mutatiesoort : String
  afBij : String

/-- The normalized amount stored by `Entry._clean_up` in
`self._data['amount']`. -/
def rowAmount (r : Row) : String :=
  cleanAmount r.bedrag

/-- Errors the program can raise while building a memo:
`incassoErr` is the explicit `raise Exception(mededelingen, omschrijving)`
of `_memo_incasso`; `valueErr` is the uncaught `ValueError` that
`_memo_verzamelbetaling` leaks when `'Naam: '` is present but
`'Kenmerk: '` is not. -/
inductive MemoErr where
  | incassoErr (mededelingen omschrijving : String)
  | valueErr
deriving DecidableEq

/-- `QifEntry._memo_geldautomaat`. -/
def memo_geldautomaat (mededelingen omschrijving : String) : String :=
  if strStartsWith omschrijving "ING>" ||
      strStartsWith omschrijving "ING BANK>" ||
      strStartsWith omschrijving "OPL. CHIPKNIP" then
    omschrijving
  else
    strTake mededelingen 32

/-- `QifEntry._memo_incasso`. -/
def memo_incasso (mededelingen omschrijving : String) :
    Except MemoErr (Option String) :=
  if strStartsWith omschrijving "SEPA Incasso" ||
      strStartsWith mededelingen "SEPA Incasso" then
    match strIndex? mededelingen "Naam: ", strIndex? mededelingen "Kenmerk: " with
    | some i, some e => .ok (some (strSlice mededelingen (i + 6) e))
    | _, _ => .error (.incassoErr mededelingen omschrijving)
  else
    .ok none

/-- `QifEntry._memo_internetbankieren`.  Note the containment check uses
`'Omschrijving:'` (no trailing space) while the extraction uses
`'Omschrijving: '` (with space); a `ValueError` anywhere in the `try`
block yields `None`. -/
def memo_internetbankieren (mededelingen omschrijving : String) :
    Option String :=
  match strIndex? mededelingen "Naam: " with
  | none => none
  | some i =>
    if containsSub mededelingen "Omschrijving:" then
      match strIndex? mededelingen "Omschrijving: " with
      | none => none
      | some e => some (strSlice mededelingen (i + 6) e)
    else
      match strIndex? mededelingen "IBAN: " with
      | none => none
      | some e => some (strSlice mededelingen (i + 6) e)

/-- `QifEntry._memo_diversen`. -/
def memo_diversen (mededelingen omschrijving : String) : String :=
  strTake mededelingen 64

/-- `QifEntry._memo_verzamelbetaling`.  The `'Kenmerk: '` lookup is not
guarded by a `try`, so a missing marker leaks a `ValueError`. -/
def memo_verzamelbetaling (mededelingen omschrijving : String) :
    Except MemoErr (Option String) :=
  if containsSub mededelingen "Naam: " then
    match strIndex? mededelingen "Naam: ", strIndex? mededelingen "Kenmerk: " with
    | some i, some e => .ok (some (strSlice mededelingen (i + 6) e))
    | _, _ => .error .valueErr
  else
    .ok none

/-- `QifEntry._entry_type`: the category-to-type-label table, with a
`KeyError` on an unknown category caught and turned into `None`. -/
def entry_type (mutatiesoort : String) : Option String :=
  match mutatiesoort with
  | "Geldautomaat" => some "ATM"
  | "Internetbankieren" => some "Transfer"
  | "Incasso" => some "Transfer"
  | "Verzamelbetaling" => some "Transfer"
  | "Betaalautomaat" => some "ATM"
  | "Storting" => some "Deposit"
  | _ => none

/-- The category dispatch inside `QifEntry._memo`: the strategy table,
with a `KeyError` on an unknown category caught (`pass`), leaving the
memo `None`.  Factored out of `memoCore` for use in theorem statements. -/
def resolveStrategy (mutatiesoort mededelingen omschrijving : String) :
    Except MemoErr (Option String) :=
  match mutatiesoort with
  | "Diversen" => .ok (some (memo_diversen mededelingen omschrijving))
  | "Betaalautomaat" => .ok (some (memo_geldautomaat mededelingen omschrijving))
  | "Geldautomaat" => .ok (some (memo_geldautomaat mededelingen omschrijving))
  | "Incasso" => memo_incasso mededelingen omschrijving
  | "Internetbankieren" => .ok (memo_internetbankieren mededelingen omschrijving)
  | "Overschrijving" => .ok (memo_internetbankieren mededelingen omschrijving)
  | "Verzamelbetaling" => memo_verzamelbetaling mededelingen omschrijving
  | _ => .ok none

/-- `QifEntry._memo`: dispatch on the category, default the memo to
`f"{Mededelingen} {Naam / Omschrijving}"` when the strategy yields
`None`, then prefix the type label (untrimmed) or strip (no label). -/
def memoCore (mutatiesoort mededelingen omschrijving : String) :
    Except MemoErr String :=
  match
    (match mutatiesoort with
     | "Diversen" => Except.ok (some (memo_diversen mededelingen omschrijving))
     | "Betaalautomaat" => Except.ok (some (memo_geldautomaat mededelingen omschrijving))
     | "Geldautomaat" => Except.ok (some (memo_geldautomaat mededelingen omschrijving))
     | "Incasso" => memo_incasso mededelingen omschrijving
     | "Internetbankieren" => Except.ok (memo_internetbankieren mededelingen omschrijving)
     | "Overschrijving" => Except.ok (memo_internetbankieren mededelingen omschrijving)
     | "Verzamelbetaling" => memo_verzamelbetaling mededelingen omschrijving
     | _ => (Except.ok none : Except MemoErr (Option String))) with
  | .error e => .error e
  | .ok r =>
    match entry_type mutatiesoort with
    | some t => .ok (t ++ " " ++ r.getD (mededelingen ++ " " ++ omschrijving))
    | none => .ok (pyStrip (r.getD (mededelingen ++ " " ++ omschrijving)))

/-- The memo of a row. -/
def rowMemo (r : Row) : Except MemoErr String :=
  memoCore r.mutatiesoort r.mededelingen r.naamOmschrijving

/-- `QifEntry._date_format`: `f"{d[6:8]}/{d[4:6]}/{d[0:4]}"`. -/
def date_format (date : String) : String :=
  strSlice date 6 8 ++ "/" ++ strSlice date 4 6 ++ "/" ++ strSlice date 0 4

/-- `QifEntry._amount_format`. -/
def amount_format (r : Row) : String :=
  if r.afBij = "Bij" then "+" ++ rowAmount r else "-" ++ rowAmount r

/-- `QifEntry.processing`: the ordered output lines of one record. -/
def processing (r : Row) : Except MemoErr (List String) :=
  match rowMemo r with
  | .error e => .error e
  | .ok m =>
    .ok ["D" ++ date_format r.datum,
         "T" ++ amount_format r,
         "U" ++ amount_format r,
         "P" ++ r.naamOmschrijving,
         "M" ++ m,
         "Cc",
         "N",
         "^"]

/-- `QifEntry.serialize`: `"\n".join(self._data)`. -/
def entrySerialize (r : Row) : Except MemoErr String :=
  match processing r with
  | .error e => .error e
  | .ok ls => .ok (pyJoin "\n" ls)

/-- Building the blocks of all entries in order, stopping at the first
raised error (entries are constructed eagerly by `add_entry`). -/
def serializeBlocks : List Row → Except MemoErr (List String)
  | [] => .ok []
  | r :: rest =>
    match entrySerialize r with
    | .error e => .error e
    | .ok b =>
      match serializeBlocks rest with
      | .error e => .error e
      | .ok bs => .ok (b :: bs)

/-- `QifEntries.serialize`: `"\n".join(["!Type:Bank"] + blocks)`. -/
def qifSerialize (rs : List Row) : Except MemoErr String :=
  match serializeBlocks rs with
  | .error e => .error e
  | .ok blocks => .ok (pyJoin "\n" ("!Type:Bank" :: blocks))

/-- The `break` condition of `main`'s loop:
`if number and c > start + number - 2`.  Python truthiness of `number`
(an optional integer) is `number is not None and number != 0`. -/
def breakCond (c1 : Nat) (start : Int) (number : Option Int) : Bool :=
  match number with
  | none => false
  | some n => decide (n ≠ 0) && decide ((c1 : Int) > start + n - 2)

/-- The record-selection loop of `main`: counter `c` starts at 0 and is
incremented before each test; a record is kept when `c >= start`, and
after keeping one the loop breaks when `breakCond` holds.  The loop never
inspects the records themselves, so it is stated for any element type. -/
def mainLoop {α : Type} : List α → Nat → Int → Option Int → List α
  | [], _, _, _ => []
  | r :: rest, c, start, number =>
    if ((c + 1 : Nat) : Int) ≥ start then
      if breakCond (c + 1) start number = true then [r]
      else r :: mainLoop rest (c + 1) start number
    else
      mainLoop rest (c + 1) start number

/-- `main` up to the file write: window the rows, then serialize. -/
def mainConvert (rows : List Row) (start : Int) (number : Option Int) :
    Except MemoErr String :=
  qifSerialize (mainLoop rows 0 start number)

/-- Spec-side predicate for claim C7's words "valid decimal numeral"
with `.` as separator: nonempty, digits with at most one point. -/
def isDecimalNumeral (s : String) : Bool :=
  !s.data.isEmpty && s.data.all (fun c => c.isDigit || c == '.') &&
    decide (s.data.count '.' ≤ 1)

/-- A decimal numeral written with `,` as separator (the ING export's
locale form): nonempty, digits with at most one comma. -/
def isCommaDecimalNumeral (s : String) : Bool :=
  !s.data.isEmpty && s.data.all (fun c => c.isDigit || c == ',') &&
    decide (s.data.count ',' ≤ 1)

/-- Modelled from the spec claim C1's words: take the text from just
after "Naam: " up to whichever of the markers "Omschrijving: " or
"IBAN: " occurs first in the notes; `none` when "Naam: " is absent.
Stated only to be compared against `memo_internetbankieren`. -/
def memoInternetbankierenFirstMarker (mededelingen omschrijving : String) :
    Option String :=
  match strIndex? mededelingen "Naam: " with
  | none => none
  | some i =>
    match strIndex? mededelingen "Omschrijving: ", strIndex? mededelingen "IBAN: " with
    | some a, some b => some (strSlice mededelingen (i + 6) (min a b))
    | some a, none => some (strSlice mededelingen (i + 6) a)
    | none, some b => some (strSlice mededelingen (i + 6) b)
    | none, none => none

/-- Is the final line of a serialized block the lone line `"^"`?
(The block is `"^"` itself, or ends in newline followed by `"^"`.) -/
def lastLineIsCaret (b : String) : Bool :=
  b.data.reverse.take 2 == ['^', '\n'] || b.data == ['^']

/-- Every selected row serializes successfully to a block whose final
line is a lone `"^"`. -/
def allBlocksEndCaret (rs : List Row) : Bool :=
  rs.all fun r =>
    match entrySerialize r with
    | .ok b => lastLineIsCaret b
    | .error _ => false

/-! ### Helper lemmas -/

lemma str_data_append (a b : String) : (a ++ b).data = a.data ++ b.data := by
  cases a; cases b; rfl

lemma newline_data : ("\n" : String).data = ['\n'] := rfl

lemma caret_data : ("^" : String).data = ['^'] := rfl

lemma plus_data : ("+" : String).data = ['+'] := rfl

lemma minus_data : ("-" : String).data = ['-'] := rfl

lemma listStarts_append (p t : List Char) : listStarts p (p ++ t) = true := by
  induction p with
  | nil => rfl
  | cons c cs ih => simp [listStarts, ih]

lemma pyJoin_cons_cons (sep x y : String) (ys : List String) :
    pyJoin sep (x :: y :: ys) = x ++ sep ++ pyJoin sep (y :: ys) := rfl

/-! ### Claim theorems -/

/-- C8: for every 8-character date string `YYYYMMDD`, `_date_format`
returns `DD/MM/YYYY` by pure substring slicing; on malformed input it
still returns a (possibly malformed) string — the embedding of the
Python slicing is total, shown here on two malformed inputs. -/
theorem date_format_rule :
    (∀ y1 y2 y3 y4 m1 m2 d1 d2 : Char,
      date_format (String.mk [y1, y2, y3, y4, m1, m2, d1, d2]) =
        String.mk [d1, d2, '/', m1, m2, '/', y1, y2, y3, y4]) ∧
    date_format "" = "//" ∧ date_format "2014" = "//2014" ∧
    date_format "20140131" = "31/01/2014" :=
  ⟨fun y1 y2 y3 y4 m1 m2 d1 d2 => rfl, rfl, rfl, rfl⟩

/-- C6: the formatted amount is the normalized amount prefixed with `+`
exactly when `'Af Bij'` equals `"Bij"`, and with `-` for every other
value; the sign character depends only on the direction field, never on
the amount's content. -/
theorem amount_sign_rule (r : Row) :
    ((r.afBij = "Bij" → amount_format r = "+" ++ rowAmount r) ∧
     (r.afBij ≠ "Bij" → amount_format r = "-" ++ rowAmount r)) ∧
    (∀ r' : Row, r.afBij = r'.afBij →
      (amount_format r).data.head? = (amount_format r').data.head?) := by
  refine ⟨⟨fun h => by simp [amount_format, h], fun h => by simp [amount_format, h]⟩, ?_⟩
  intro r' h
  unfold amount_format
  rw [← h]
  by_cases hb : r.afBij = "Bij" <;>
    simp [hb, str_data_append, plus_data, minus_data]

/-- C6 witness: concrete credit and debit rows. -/
theorem amount_sign_rule_witness :
    amount_format ⟨"1,23", "20140131", "p", "m", "t", "Bij"⟩ = "+1.23" ∧
    amount_format ⟨"1,23", "20140131", "p", "m", "t", "Af"⟩ = "-1.23" := by
  have h1 := (amount_sign_rule ⟨"1,23", "20140131", "p", "m", "t", "Bij"⟩).1.1 rfl
  have h2 := (amount_sign_rule ⟨"1,23", "20140131", "p", "m", "t", "Af"⟩).1.2 (by decide)
  exact ⟨h1.trans rfl, h2.trans rfl⟩

/-- C7 counterexample: the normalized amount is not always a valid
decimal numeral — the replacement rewrites every comma, so a malformed
source amount stays malformed. -/
theorem amount_not_always_numeral :
    rowAmount ⟨"1,2,3", "", "", "", "", ""⟩ = "1.2.3" ∧
    isDecimalNumeral (rowAmount ⟨"1,2,3", "", "", "", "", ""⟩) = false := by
  exact ⟨rfl, by decide⟩

lemma map_commaToDot_shape (l : List Char)
    (h : l.all (fun c => c.isDigit || c == ',') = true) :
    (l.map commaToDot).all (fun c => c.isDigit || c == '.') = true ∧
    (l.map commaToDot).count '.' ≤ l.count ',' := by
  induction l with
  | nil => simp
  | cons c rest ih =>
    simp only [List.all_cons, Bool.and_eq_true] at h
    obtain ⟨hc, hrest⟩ := h
    obtain ⟨ih1, ih2⟩ := ih hrest
    by_cases hcomma : c = ','
    · subst hcomma
      refine ⟨by simp [commaToDot, ih1], ?_⟩
      simp only [List.map_cons, commaToDot, if_pos rfl, List.count_cons]
      simp
      omega
    · have hdig : c.isDigit = true := by
        cases hd : c.isDigit
        · rw [hd] at hc
          simp at hc
          exact absurd hc hcomma
        · rfl
      have hnd : c ≠ '.' := by
        intro h'
        subst h'
        exact absurd hdig (by decide)
      refine ⟨by simp [commaToDot, hcomma, ih1, hdig], ?_⟩
      simp only [List.map_cons, commaToDot, if_neg hcomma, List.count_cons]
      simp [hnd, hcomma]
      omega

/-- C7 amended: the stored normalized amount is the source amount with
every comma replaced by a point (so it never contains a comma), and it
is a valid point-separated decimal numeral whenever the source amount
was a valid comma-separated decimal numeral. -/
theorem amount_normalization_rule (r : Row) :
    (rowAmount r).data = r.bedrag.data.map commaToDot ∧
    (',' ∉ (rowAmount r).data) ∧
    (isCommaDecimalNumeral r.bedrag = true → isDecimalNumeral (rowAmount r) = true) := by
  refine ⟨rfl, ?_, ?_⟩
  · intro hmem
    have hmem' : ',' ∈ r.bedrag.data.map commaToDot := hmem
    simp only [List.mem_map] at hmem'
    obtain ⟨c, _, hc⟩ := hmem'
    by_cases h : c = ','
    · rw [commaToDot, if_pos h] at hc
      exact absurd hc (by decide)
    · rw [commaToDot, if_neg h] at hc
      exact h hc
  · intro h
    simp only [isCommaDecimalNumeral, Bool.and_eq_true] at h
    obtain ⟨⟨hne, hall⟩, hcount⟩ := h
    obtain ⟨h1, h2⟩ := map_commaToDot_shape r.bedrag.data hall
    simp only [isDecimalNumeral, Bool.and_eq_true]
    refine ⟨⟨?_, h1⟩, ?_⟩
    · simp only [rowAmount, cleanAmount]
      cases hl : r.bedrag.data with
      | nil => rw [hl] at hne; simp at hne
      | cons a l => simp [hl]
    · rw [decide_eq_true_eq] at hcount ⊢
      exact le_trans h2 hcount

/-- C7 witness: a well-formed source amount. -/
theorem amount_normalization_rule_witness :
    (',' ∉ (rowAmount ⟨"1,23", "", "", "", "", ""⟩).data) ∧
    isDecimalNumeral (rowAmount ⟨"1,23", "", "", "", "", ""⟩) = true := by
  have h := amount_normalization_rule ⟨"1,23", "", "", "", "", ""⟩
  exact ⟨h.2.1, h.2.2 (by decide)⟩

/-- C5: for category `Geldautomaat` or `Betaalautomaat`, the memo is the
full payee when it starts with one of the ATM-operator markers, else the
first 32 characters of the notes, and the final memo carries the `ATM`
label. -/
theorem geldautomaat_memo_rule (ms md om : String)
    (h : ms = "Geldautomaat" ∨ ms = "Betaalautomaat") :
    memoCore ms md om =
      .ok ("ATM " ++
        (if strStartsWith om "ING>" || strStartsWith om "ING BANK>" ||
            strStartsWith om "OPL. CHIPKNIP" then om else strTake md 32)) := by
  rcases h with h | h <;> subst h <;> rfl

/-- C5 witness: the spec's fixture `payee = "ING>Main St"`. -/
theorem geldautomaat_memo_rule_witness :
    memoCore "Geldautomaat" "some notes" "ING>Main St" = .ok "ATM ING>Main St" :=
  (geldautomaat_memo_rule "Geldautomaat" "some notes" "ING>Main St" (Or.inl rfl)).trans rfl

/-- C2: for category `Incasso`, when the payee or the notes starts with
`"SEPA Incasso"` and either the `"Naam: "` or the `"Kenmerk: "` marker
is absent from the notes, memo resolution raises the error carrying both
strings; when the prefix check fails, no error is raised and the default
memo (notes, space, payee — here under the `Transfer` label) is used. -/
theorem incasso_error_rule (md om : String) :
    ((strStartsWith om "SEPA Incasso" || strStartsWith md "SEPA Incasso") = true →
      (strIndex? md "Naam: " = none ∨ strIndex? md "Kenmerk: " = none) →
      memoCore "Incasso" md om = .error (.incassoErr md om)) ∧
    ((strStartsWith om "SEPA Incasso" || strStartsWith md "SEPA Incasso") = false →
      memoCore "Incasso" md om = .ok ("Transfer " ++ (md ++ " " ++ om))) := by
  have hrfl : memoCore "Incasso" md om =
      (match memo_incasso md om with
       | .error e => .error e
       | .ok r => .ok ("Transfer" ++ " " ++ r.getD (md ++ " " ++ om))) := rfl
  constructor
  · intro hpre hmark
    rw [hrfl]
    have : memo_incasso md om = .error (.incassoErr md om) := by
      rw [memo_incasso, if_pos hpre]
      rcases hmark with h | h
      · rw [h]
      · rw [h]
        cases strIndex? md "Naam: " <;> rfl
    rw [this]
  · intro hpre
    rw [hrfl]
    have : memo_incasso md om = .ok none := by
      rw [memo_incasso, if_neg (by simp [hpre])]
    rw [this]
    rfl

/-- C2 witness: a SEPA-prefixed record missing both markers errors; a
non-SEPA record falls through to the default memo. -/
theorem incasso_error_rule_witness :
    memoCore "Incasso" "SEPA Incasso x" "p" = .error (.incassoErr "SEPA Incasso x" "p") ∧
    memoCore "Incasso" "hello" "world" = .ok "Transfer hello world" := by
  constructor
  · exact (incasso_error_rule "SEPA Incasso x" "p").1 (by decide) (Or.inl (by decide))
  · exact ((incasso_error_rule "hello" "world").2 (by decide)).trans rfl

/-- C4: once the category strategy resolves to `r` (no error), the final
memo is the type label, a space, and the resolved-or-default memo with
no trimming when the classifier yields a label, and the stripped
resolved-or-default memo when it yields none. -/
theorem memo_label_trim_rule (ms md om : String) (r : Option String)
    (h : resolveStrategy ms md om = .ok r) :
    (∀ t, entry_type ms = some t →
      memoCore ms md om = .ok (t ++ " " ++ r.getD (md ++ " " ++ om))) ∧
    (entry_type ms = none →
      memoCore ms md om = .ok (pyStrip (r.getD (md ++ " " ++ om)))) := by
  have hrfl : memoCore ms md om =
      (match resolveStrategy ms md om with
       | .error e => .error e
       | .ok r =>
         match entry_type ms with
         | some t => .ok (t ++ " " ++ r.getD (md ++ " " ++ om))
         | none => .ok (pyStrip (r.getD (md ++ " " ++ om)))) := rfl
  constructor
  · intro t ht
    rw [hrfl, h, ht]
  · intro ht
    rw [hrfl, h, ht]

/-- C4 witness: `Storting` (labelled `Deposit`, untrimmed — note the
double space) and an unrecognized category (unlabelled, stripped). -/
theorem memo_label_trim_rule_witness :
    memoCore "Storting" " pad" "x" = .ok "Deposit  pad x" ∧
    memoCore "" " a " "b" = .ok "a  b" := by
  constructor
  · exact ((memo_label_trim_rule "Storting" " pad" "x" none rfl).1 "Deposit" rfl).trans rfl
  · exact ((memo_label_trim_rule "" " a " "b" none rfl).2 rfl).trans rfl

/-- C1 counterexample: with notes `"Naam: A IBAN: B Omschrijving: C"`
the marker `"IBAN: "` occurs first, but the code extracts up to
`"Omschrijving: "`, so the strategy disagrees with the claim's
first-occurring-marker reading. -/
theorem internetbankieren_first_marker_mismatch :
    memo_internetbankieren "Naam: A IBAN: B Omschrijving: C" "" = some "A IBAN: B " ∧
    memoInternetbankierenFirstMarker "Naam: A IBAN: B Omschrijving: C" "" = some "A " ∧
    memo_internetbankieren "Naam: A IBAN: B Omschrijving: C" "" ≠
      memoInternetbankierenFirstMarker "Naam: A IBAN: B Omschrijving: C" "" := by
  refine ⟨by decide, by decide, by decide⟩

/-- C1 amended: for `Internetbankieren`/`Overschrijving`, the strategy
takes the text from just after `"Naam: "` up to `"Omschrijving: "`
whenever the notes contain `"Omschrijving:"`, and otherwise up to
`"IBAN: "`; when `"Naam: "` (or the chosen end marker) is absent it
yields no result, so the default memo applies, rather than erroring. -/
theorem internetbankieren_memo_rule (md om : String) :
    (strIndex? md "Naam: " = none → memo_internetbankieren md om = none) ∧
    (∀ i, strIndex? md "Naam: " = some i →
      (containsSub md "Omschrijving:" = true →
        memo_internetbankieren md om =
          (strIndex? md "Omschrijving: ").map (fun e => strSlice md (i + 6) e)) ∧
      (containsSub md "Omschrijving:" = false →
        memo_internetbankieren md om =
          (strIndex? md "IBAN: ").map (fun e => strSlice md (i + 6) e))) ∧
    (memo_internetbankieren md om = none →
      memoCore "Internetbankieren" md om = .ok ("Transfer " ++ (md ++ " " ++ om)) ∧
      memoCore "Overschrijving" md om = .ok (pyStrip (md ++ " " ++ om))) := by
  refine ⟨?_, ?_, ?_⟩
  · intro h
    rw [memo_internetbankieren, h]
  · intro i hi
    constructor
    · intro hc
      rw [memo_internetbankieren, hi]
      simp only [hc, if_true]
      cases strIndex? md "Omschrijving: " <;> rfl
    · intro hc
      rw [memo_internetbankieren, hi]
      simp only [hc, Bool.false_eq_true, if_false]
      cases strIndex? md "IBAN: " <;> rfl
  · intro h
    have h1 : memoCore "Internetbankieren" md om =
        .ok ("Transfer" ++ " " ++ (memo_internetbankieren md om).getD (md ++ " " ++ om)) := rfl
    have h2 : memoCore "Overschrijving" md om =
        .ok (pyStrip ((memo_internetbankieren md om).getD (md ++ " " ++ om))) := rfl
    rw [h1, h2, h]
    exact ⟨rfl, rfl⟩

/-- C1 amended witness: notes without `"Naam: "` fall back to the
default memo without an error. -/
theorem internetbankieren_memo_rule_witness :
    memo_internetbankieren "xyz" "o" = none ∧
    memoCore "Internetbankieren" "xyz" "o" = .ok "Transfer xyz o" := by
  have h := internetbankieren_memo_rule "xyz" "o"
  have h0 : memo_internetbankieren "xyz" "o" = none := h.1 (by decide)
  exact ⟨h0, ((h.2.2 h0).1).trans rfl⟩

lemma mainLoop_take {α : Type} (N M : Nat) (hN : 1 ≤ N) (hM : 1 ≤ M) :
    ∀ (rows : List α) (c : Nat), N ≤ c + 1 → c + 1 ≤ N + M - 1 →
      mainLoop rows c (N : Int) (some (M : Int)) = rows.take (N + M - 1 - c) := by
  intro rows
  induction rows with
  | nil => intro c h1 h2; simp [mainLoop]
  | cons r rest ih =>
    intro c h1 h2
    simp only [mainLoop]
    rw [if_pos (show ((c + 1 : Nat) : Int) ≥ (N : Int) by push_cast; omega)]
    by_cases hbr : c + 1 = N + M - 1
    · have hb : breakCond (c + 1) (N : Int) (some (M : Int)) = true := by
        simp [breakCond]
        omega
      rw [hb, if_pos rfl]
      have hk : N + M - 1 - c = 1 := by omega
      rw [hk]
      simp
    · have hb : breakCond (c + 1) (N : Int) (some (M : Int)) = false := by
        simp [breakCond]
        omega
      rw [hb, if_neg Bool.false_ne_true]
      have hk : N + M - 1 - c = (N + M - 1 - (c + 1)) + 1 := by omega
      rw [hk, List.take_succ_cons, ih (c + 1) (by omega) (by omega)]

lemma mainLoop_window {α : Type} (N M : Nat) (hN : 1 ≤ N) (hM : 1 ≤ M) :
    ∀ (rows : List α) (c : Nat), c + 1 ≤ N →
      mainLoop rows c (N : Int) (some (M : Int)) = (rows.drop (N - 1 - c)).take M := by
  intro rows
  induction rows with
  | nil => intro c h; simp [mainLoop]
  | cons r rest ih =>
    intro c h
    by_cases hstart : c + 1 = N
    · rw [mainLoop_take N M hN hM (r :: rest) c (by omega) (by omega)]
      have h1 : N - 1 - c = 0 := by omega
      have h2 : N + M - 1 - c = M := by omega
      rw [h1, h2]
      simp
    · simp only [mainLoop]
      rw [if_neg (show ¬((c + 1 : Nat) : Int) ≥ (N : Int) by push_cast; omega)]
      rw [ih (c + 1) (by omega)]
      have hk : N - 1 - c = (N - 1 - (c + 1)) + 1 := by omega
      rw [hk, List.drop_succ_cons]

/-- C3: for every input sequence, 1-based start index `N ≥ 1` and given
record count `M ≥ 1`, the main loop selects exactly the contiguous
records at positions `N` through `N + M - 1` in original order — exactly
`M` records unless the input is exhausted first.  (The separately
claimed `number = 0` case disables the limit instead.) -/
theorem window_selects_slice {α : Type} (rows : List α) (N M : Nat)
    (hN : 1 ≤ N) (hM : 1 ≤ M) :
    mainLoop rows 0 (N : Int) (some (M : Int)) = (rows.drop (N - 1)).take M := by
  simpa using mainLoop_window N M hN hM rows 0 (by omega)

/-- C3 witness: 10 rows, start 3, count 4 select exactly rows 3–6. -/
theorem window_selects_slice_witness :
    mainLoop [1, 2, 3, 4, 5, 6, 7, 8, 9, 10] 0 ((3 : Nat) : Int) (some ((4 : Nat) : Int)) =
      [3, 4, 5, 6] :=
  (window_selects_slice [1, 2, 3, 4, 5, 6, 7, 8, 9, 10] 3 4 (by decide) (by decide)).trans
    (by decide)

lemma mainLoop_zero_number {α : Type} (N : Nat) :
    ∀ (rows : List α) (c : Nat),
      mainLoop rows c (N : Int) (some 0) = rows.drop (N - 1 - c) := by
  intro rows
  induction rows with
  | nil => intro c; simp [mainLoop]
  | cons r rest ih =>
    intro c
    have hb : breakCond (c + 1) (N : Int) (some 0) = false := by
      simp [breakCond]
    simp only [mainLoop, hb]
    by_cases hge : N ≤ c + 1
    · rw [if_pos (show ((c + 1 : Nat) : Int) ≥ (N : Int) by push_cast; omega)]
      rw [if_neg Bool.false_ne_true]
      have h1 : N - 1 - c = 0 := by omega
      have h2 : N - 1 - (c + 1) = 0 := by omega
      rw [h1, ih (c + 1), h2]
      simp
    · rw [if_neg (show ¬((c + 1 : Nat) : Int) ≥ (N : Int) by push_cast; omega)]
      rw [ih (c + 1)]
      have hk : N - 1 - c = (N - 1 - (c + 1)) + 1 := by omega
      rw [hk, List.drop_succ_cons]

/-- C10: when the record-count parameter is supplied as 0 it is falsy in
the loop's break test, so every record from the start position to the
end of the input is included rather than zero records. -/
theorem zero_number_disables_limit {α : Type} (rows : List α) (N : Nat) :
    mainLoop rows 0 (N : Int) (some 0) = rows.drop (N - 1) := by
  simpa using mainLoop_zero_number N rows 0

lemma header_starts (blocks : List String) :
    strStartsWith (pyJoin "\n" ("!Type:Bank" :: blocks)) "!Type:Bank" = true := by
  cases blocks with
  | nil => decide
  | cons b bs =>
    rw [pyJoin_cons_cons]
    unfold strStartsWith
    rw [str_data_append, str_data_append, List.append_assoc]
    exact listStarts_append _ _

lemma pyJoin_last_caret : ∀ ls : List String,
    lastLineIsCaret (pyJoin "\n" (ls ++ ["^"])) = true := by
  intro ls
  induction ls with
  | nil => decide
  | cons x xs ih =>
    cases xs with
    | nil =>
      show lastLineIsCaret (x ++ "\n" ++ "^") = true
      unfold lastLineIsCaret
      rw [str_data_append, str_data_append, newline_data, caret_data, List.append_assoc]
      rw [List.reverse_append]
      simp
    | cons y ys =>
      rw [show (x :: y :: ys) ++ ["^"] = x :: ((y :: ys) ++ ["^"]) from rfl]
      rw [show x :: ((y :: ys) ++ ["^"]) = x :: (y :: (ys ++ ["^"])) from rfl]
      rw [pyJoin_cons_cons]
      rw [show (y :: (ys ++ ["^"])) = ((y :: ys) ++ ["^"]) from rfl]
      unfold lastLineIsCaret at ih ⊢
      rw [Bool.or_eq_true] at ih
      rcases ih with h | h
      · have heq : (pyJoin "\n" ((y :: ys) ++ ["^"])).data.reverse.take 2 = ['^', '\n'] :=
          eq_of_beq h
        have hlen : 2 ≤ (pyJoin "\n" ((y :: ys) ++ ["^"])).data.reverse.length := by
          have h2 : ((pyJoin "\n" ((y :: ys) ++ ["^"])).data.reverse.take 2).length = 2 := by
            rw [heq]
            rfl
          rw [List.length_take] at h2
          rcases Nat.le_total 2 (pyJoin "\n" ((y :: ys) ++ ["^"])).data.reverse.length with
            hle | hle
          · exact hle
          · rw [Nat.min_eq_right hle] at h2
            omega
        rw [str_data_append, str_data_append, newline_data, List.append_assoc]
        rw [List.reverse_append, List.reverse_append]
        rw [List.append_assoc]
        rw [List.take_append_of_le_length hlen]
        rw [heq]
        simp
      · have heq : (pyJoin "\n" ((y :: ys) ++ ["^"])).data = ['^'] := eq_of_beq h
        rw [str_data_append, str_data_append, newline_data, heq, List.append_assoc]
        rw [List.reverse_append]
        simp

lemma entrySerialize_caret (r : Row) (b : String) (h : entrySerialize r = .ok b) :
    lastLineIsCaret b = true := by
  unfold entrySerialize at h
  cases hp : processing r with
  | error e => rw [hp] at h; cases h
  | ok ls =>
    rw [hp] at h
    injection h with h'
    subst h'
    unfold processing at hp
    cases hm : rowMemo r with
    | error e => rw [hm] at hp; cases hp
    | ok m =>
      rw [hm] at hp
      injection hp with hp'
      rw [← hp']
      exact pyJoin_last_caret
        ["D" ++ date_format r.datum, "T" ++ amount_format r, "U" ++ amount_format r,
         "P" ++ r.naamOmschrijving, "M" ++ m, "Cc", "N"]

lemma serializeBlocks_ok_all : ∀ (rs : List Row) (blocks : List String),
    serializeBlocks rs = .ok blocks → allBlocksEndCaret rs = true := by
  intro rs
  induction rs with
  | nil => intro blocks h; rfl
  | cons r rest ih =>
    intro blocks h
    unfold serializeBlocks at h
    cases he : entrySerialize r with
    | error e => rw [he] at h; cases h
    | ok b =>
      rw [he] at h
      cases hs : serializeBlocks rest with
      | error e => rw [hs] at h; cases h
      | ok bs =>
        unfold allBlocksEndCaret
        rw [List.all_cons]
        have h1 : (match entrySerialize r with
            | .ok b => lastLineIsCaret b
            | .error _ => false) = true := by
          rw [he]
          exact entrySerialize_caret r b he
        rw [h1]
        have h2 := ih bs hs
        unfold allBlocksEndCaret at h2
        rw [h2]
        rfl

/-- C9: whenever serialization of a sequence of accepted records
succeeds, the document begins with the header line `!Type:Bank`, and
every record serializes to a block whose final line is a lone `^`. -/
theorem serialize_structure_rule (rs : List Row) (s : String)
    (h : qifSerialize rs = .ok s) :
    strStartsWith s "!Type:Bank" = true ∧ allBlocksEndCaret rs = true := by
  unfold qifSerialize at h
  cases hb : serializeBlocks rs with
  | error e => rw [hb] at h; cases h
  | ok blocks =>
    rw [hb] at h
    injection h with h'
    rw [← h']
    exact ⟨header_starts blocks, serializeBlocks_ok_all rs blocks hb⟩

/-- C9 witness: a one-record document. -/
theorem serialize_structure_rule_witness :
    strStartsWith "!Type:Bank\nD31/01/2014\nT+1.00\nU+1.00\nPShop\nMnote Shop\nCc\nN\n^"
        "!Type:Bank" = true ∧
    allBlocksEndCaret [⟨"1,00", "20140131", "Shop", "note", "", "Bij"⟩] = true :=
  serialize_structure_rule [⟨"1,00", "20140131", "Shop", "note", "", "Bij"⟩]
    "!Type:Bank\nD31/01/2014\nT+1.00\nU+1.00\nPShop\nMnote Shop\nCc\nN\n^" rfl

end Ing2Qif
